import Mathlib

/-!
Verification of the core of `p4-whodunit.py`, a blame-with-history report
generator for Perforce files.

The Python source is shallowly embedded here:

* Python strings are modelled as `List Char`; the helpers `splitLines`,
  `stripL`, `lstripL`, `rstripL`, `containsSubL` model `str.split('\n')`,
  `str.strip()`, `str.rstrip()`, `str.lstrip()` and `str.find(sub) >= 0`.
* The three regular expressions used by the script,
  `Change (\d+) by ([^@]+)@`, `change\s+(\d+)` and
  `text:\s+(\d+)-(\d+):(.*)$`, are compiled by hand into the deterministic
  leftmost-match scanners `searchChangeBy`, `searchLatest` and `searchText`
  (each pattern is backtracking-free: every greedy repetition is followed by
  a character it can never consume, so the leftmost match is found by an
  anchored attempt at every start position, left to right).
* External commands (`p4 annotate`, `p4 describe`) are oracles supplying an
  exit status and combined output, mirroring `system`.
* `err(...)`/`sys.exit` are modelled as a `fatal` outcome; an uncaught
  Python exception (`math.log10(0)`, negative list index) as a `crash`
  outcome.  Lines written to stdout by the report itself are accumulated in
  `printed`; the diagnostic line of `err` is carried by the outcome.
-/

namespace P4

/-- The six characters Python's `str.strip` and the regex class `\s` treat as
whitespace (ASCII range, which is all the inputs here use). -/
def isPySpace (c : Char) : Bool :=
  c == ' ' || c == '\t' || c == '\n' || c == '\r' || c == '\x0b' || c == '\x0c'

/-- Python `s.lstrip()`. -/
def lstripL (cs : List Char) : List Char := cs.dropWhile isPySpace

/-- Python `s.rstrip()`. -/
def rstripL (cs : List Char) : List Char := (cs.reverse.dropWhile isPySpace).reverse

/-- Python `s.strip()`. -/
def stripL (cs : List Char) : List Char := rstripL (lstripL cs)

/-- Python `s.split('\n')` (keeps empty segments; `''.split('\n') = ['']`). -/
def splitLines : List Char → List (List Char)
  | [] => [[]]
  | c :: cs =>
    let r := splitLines cs
    if c == '\n' then [] :: r
    else (c :: r.headD []) :: r.tail

/-- Does `pat` occur at the very start of `cs`? -/
def startsWithL : List Char → List Char → Bool
  | [], _ => true
  | _ :: _, [] => false
  | p :: ps, c :: cs => p == c && startsWithL ps cs

/-- Python `s.find(pat) >= 0`: does `pat` occur anywhere in `cs`? -/
def containsSubL (pat : List Char) : List Char → Bool
  | [] => startsWithL pat []
  | c :: cs => startsWithL pat (c :: cs) || containsSubL pat cs

/-- Python `int(...)` on a decimal digit string (the regex groups `(\d+)`). -/
def digitsToNat (ds : List Char) : Nat :=
  ds.foldl (fun a c => a * 10 + (c.toNat - 48)) 0

/-- The decimal digit character for `d < 10`. -/
def digitChar (d : Nat) : Char := Char.ofNat (48 + d)

/-- Decimal rendering of a natural number, most significant digit first
(fuel-based so that it evaluates in the kernel; the fuel `n` always
suffices because `n / 10 < n`). -/
def natToCharsAux : Nat → Nat → List Char
  | 0, _ => []
  | fuel + 1, n =>
    if n = 0 then []
    else natToCharsAux fuel (n / 10) ++ [digitChar (n % 10)]

/-- Python `str(n)` / `'%d' % n` for a natural number. -/
def natToChars (n : Nat) : List Char :=
  if n = 0 then ['0'] else natToCharsAux n n

/-- `int(math.log10 n) + 1`, the decimal digit count the script uses for
column widths (only ever evaluated at `n ≥ 1`; at `0` the Python call
raises `ValueError`, which the embedding models as a `crash`).  Defined as
the length of the decimal rendering so it evaluates in the kernel;
`digits10_eq_log` below identifies it with `log10`-based digit count. -/
def digits10 (n : Nat) : Nat := (natToCharsAux n n).length

/-- `'%*s' % (w, s)`: right-justify by left-padding with blanks (pads only,
never truncates). -/
def padLeftTo (w : Nat) (cs : List Char) : List Char :=
  List.replicate (w - cs.length) ' ' ++ cs

/-- `'%-*s' % (w, s)`: left-justify by right-padding with blanks (pads only,
never truncates). -/
def padRightTo (w : Nat) (cs : List Char) : List Char :=
  cs ++ List.replicate (w - cs.length) ' '

/-- Anchored attempt of `Change (\d+) by ([^@]+)@` at the start of `cs`,
returning the two groups. -/
def matchChangeByAt (cs : List Char) : Option (Nat × List Char) :=
  if startsWithL ("Change ".data) cs then
    let r1 := cs.drop 7
    let ds := r1.takeWhile Char.isDigit
    if ds.isEmpty then none else
    let r2 := r1.drop ds.length
    if startsWithL (" by ".data) r2 then
      let r3 := r2.drop 4
      let ow := r3.takeWhile (fun c => !(c == '@'))
      if ow.isEmpty then none else
      if startsWithL (['@']) (r3.drop ow.length) then some (digitsToNat ds, ow)
      else none
    else none
  else none

/-- `re.search(r'Change (\d+) by ([^@]+)@', line)`: leftmost match. -/
def searchChangeBy : List Char → Option (Nat × List Char)
  | [] => none
  | c :: cs =>
    match matchChangeByAt (c :: cs) with
    | some r => some r
    | none => searchChangeBy cs

/-- Anchored attempt of `change\s+(\d+)` at the start of `cs`. -/
def matchLatestAt (cs : List Char) : Option Nat :=
  if startsWithL ("change".data) cs then
    let r1 := cs.drop 6
    let ws := r1.takeWhile isPySpace
    if ws.isEmpty then none else
    let ds := (r1.drop ws.length).takeWhile Char.isDigit
    if ds.isEmpty then none else some (digitsToNat ds)
  else none

/-- `re.search(r'change\s+(\d+)', header)`: leftmost match. -/
def searchLatest : List Char → Option Nat
  | [] => none
  | c :: cs =>
    match matchLatestAt (c :: cs) with
    | some n => some n
    | none => searchLatest cs

/-- Anchored attempt of `text:\s+(\d+)-(\d+):(.*)$` at the start of `cs`
(the lines fed to it never contain `'\n'`, so `(.*)$` is the entire rest). -/
def matchTextAt (cs : List Char) : Option (Nat × Nat × List Char) :=
  if startsWithL ("text:".data) cs then
    let r1 := cs.drop 5
    let ws := r1.takeWhile isPySpace
    if ws.isEmpty then none else
    let r2 := r1.drop ws.length
    let d1 := r2.takeWhile Char.isDigit
    if d1.isEmpty then none else
    match r2.drop d1.length with
    | '-' :: r3 =>
      let d2 := r3.takeWhile Char.isDigit
      if d2.isEmpty then none else
      match r3.drop d2.length with
      | ':' :: payload => some (digitsToNat d1, digitsToNat d2, payload)
      | _ => none
    | _ => none
  else none

/-- `re.search(r'text:\s+(\d+)-(\d+):(.*)$', line)`: leftmost match. -/
def searchText : List Char → Option (Nat × Nat × List Char)
  | [] => none
  | c :: cs =>
    match matchTextAt (c :: cs) with
    | some r => some r
    | none => searchText cs

/-- The record dictionary built for each body line (`rec = {...}` in
`process`); `rtype` holds the Python strings `'present'` / `'deleted'`. -/
structure LineRec where
  cl_from : Nat
  cl_from_owner : List Char
  lineno : Nat
  sep : List Char
  text : List Char
  cl_to : Nat
  cl_to_owner : List Char
  rtype : String
deriving DecidableEq, Repr

/-- The mutable state of the record-building loop in `process`: the record
list `data`, the `cl_owner` memoization dict, the running column maxima and
the line-number counter.  `lookups` records, in order, every change number
for which a `p4 describe` command was actually issued (the instrumentation
needed to state the cache property). -/
structure LoopSt where
  data : List LineRec
  cl_owner : List (Nat × List Char)
  lookups : List Nat
  cl_to_max_digits : Nat
  cl_from_max_digits : Nat
  cl_to_owner_max_len : Nat
  cl_from_owner_max_len : Nat
  lineno : Nat
deriving DecidableEq, Repr

/-- The loop state at the top of `process` (lines 259-265 of the source). -/
def initSt : LoopSt :=
  { data := [], cl_owner := [], lookups := [],
    cl_to_max_digits := 1, cl_from_max_digits := 1,
    cl_to_owner_max_len := 0, cl_from_owner_max_len := 0, lineno := 0 }

/-- Lookup in the `cl_owner` dict. -/
def assocFind : List (Nat × List Char) → Nat → Option (List Char)
  | [], _ => none
  | (k, v) :: rest, c => if k = c then some v else assocFind rest c

/-- The `for line in lines: ... break` scan of `get_owner`: the variables
`change` (0 until a match) and `owner` (`None` until a match) after the
loop, taken from the first line matching `Change (\d+) by ([^@]+)@`. -/
def scanDescribe : List (List Char) → Nat × Option (List Char)
  | [] => (0, none)
  | l :: ls =>
    match searchChangeBy l with
    | some (c, o) => (c, some o)
    | none => scanDescribe ls

/-- `get_owner(cln)` given the `(returncode, output)` of its
`p4 describe -s <cln>` command: fatal if the command fails, if no line
matches, or if the matched change number differs from `cln`. -/
def get_owner (res : Int × List Char) (cln : Nat) : Except String (List Char) :=
  if res.1 ≠ 0 then Except.error ("command failed")
  else
    match scanDescribe (splitLines res.2) with
    | (change, ow) =>
      if change ≠ cln then Except.error ("p4 describe record not found")
      else
        match ow with
        | none => Except.error ("p4 describe record not found")
        | some o => Except.ok o

/-- The memoizing closure `get_cl_owner` of `process`: consult the
`cl_owner` dict, and only on a miss issue the `p4 describe` command
(recording the issued lookup). -/
def get_cl_owner (describe : Nat → Int × List Char) (st : LoopSt) (cln : Nat) :
    Except String (List Char × LoopSt) :=
  match assocFind st.cl_owner cln with
  | some o => Except.ok (o, st)
  | none =>
    match get_owner (describe cln) cln with
    | Except.error m => Except.error m
    | Except.ok o =>
      Except.ok (o, { st with cl_owner := st.cl_owner ++ [(cln, o)],
                              lookups := st.lookups ++ [cln] })

/-- How an iteration (or a parsing stage) of `process` can abort: `fatalE`
is `err(...)` (diagnostic plus `sys.exit`), `crashE` an uncaught Python
exception. -/
inductive LoopErr where
  | fatalE (msg : String)
  | crashE (msg : String)
deriving DecidableEq, Repr

/-- The record built for one body line (`rec = {...}`, lines 298-307):
present iff either change number equals `latest`, `lineno'` the counter
value stored on the record. -/
def stepRec (latest cl_from cl_to : Nat)
    (cl_from_owner cl_to_owner text : List Char) (lineno' : Nat) : LineRec :=
  { cl_from := cl_from, cl_from_owner := cl_from_owner,
    lineno := lineno',
    sep := if cl_from = latest ∨ cl_to = latest then ['|'] else ['-'],
    text := text,
    cl_to := cl_to, cl_to_owner := cl_to_owner,
    rtype := if cl_from = latest ∨ cl_to = latest then "present" else "deleted" }

/-- The loop-state update of one successful iteration: bump the counter for
a present record, update the four column maxima, append the record. -/
def stepUpdate (latest cl_from cl_to : Nat)
    (cl_from_owner cl_to_owner text : List Char) (st2 : LoopSt) : LoopSt :=
  let lineno' := if cl_from = latest ∨ cl_to = latest then st2.lineno + 1 else st2.lineno
  { data := st2.data ++ [stepRec latest cl_from cl_to cl_from_owner cl_to_owner text lineno'],
    cl_owner := st2.cl_owner,
    lookups := st2.lookups,
    cl_to_max_digits := max st2.cl_to_max_digits (digits10 cl_to),
    cl_from_max_digits := max st2.cl_from_max_digits (digits10 cl_from),
    cl_to_owner_max_len := max st2.cl_to_owner_max_len cl_to_owner.length,
    cl_from_owner_max_len := max st2.cl_from_owner_max_len cl_from_owner.length,
    lineno := lineno' }

/-- One iteration of the `for line in lines[1:last]` loop of `process`:
strip the line, match the `text:` pattern (anything else is fatal), resolve
both owners through the cache, classify against `latest`, update the
running column maxima (`math.log10` of a zero change number raises) and
append the record. -/
def stepLine (describe : Nat → Int × List Char) (latest : Nat) (st : LoopSt)
    (line : List Char) : Except LoopErr LoopSt :=
  match searchText (stripL line) with
  | none => Except.error (LoopErr.fatalE ("unrecognized line"))
  | some (cl_from, cl_to, text) =>
    match get_cl_owner describe st cl_from with
    | Except.error m => Except.error (LoopErr.fatalE m)
    | Except.ok (cl_from_owner, st1) =>
      match get_cl_owner describe st1 cl_to with
      | Except.error m => Except.error (LoopErr.fatalE m)
      | Except.ok (cl_to_owner, st2) =>
        if cl_to = 0 ∨ cl_from = 0 then
          Except.error (LoopErr.crashE ("math domain error"))
        else
          Except.ok (stepUpdate latest cl_from cl_to cl_from_owner cl_to_owner text st2)

/-- The whole record-building loop. -/
def runBody (describe : Nat → Int × List Char) (latest : Nat) :
    LoopSt → List (List Char) → Except LoopErr LoopSt
  | st, [] => Except.ok st
  | st, l :: ls =>
    match stepLine describe latest st l with
    | Except.error e => Except.error e
    | Except.ok st' => runBody describe latest st' ls

/-- Lines 242-247 of the source: locate the `exit:` terminator in the last
or second-to-last line and return the body slice `lines[1:last]`.  A
single-line stream whose only line lacks `exit:` indexes `lines[-2]` out of
range (an uncaught `IndexError`). -/
def exitCheck (lines : List (List Char)) : Except LoopErr (List (List Char)) :=
  if containsSubL ("exit:".data) (lines.getLastD []) then
    Except.ok ((lines.drop 1).dropLast)
  else if lines.length < 2 then
    Except.error (LoopErr.crashE ("IndexError: list index out of range"))
  else if containsSubL ("exit:".data) (lines.getD (lines.length - 2) []) then
    Except.ok (((lines.drop 1).dropLast).dropLast)
  else
    Except.error (LoopErr.fatalE ("cannot find exit: record"))

/-- How a `process` run ends. -/
inductive Outcome where
  | ok
  | fatal (msg : String)
  | crash (msg : String)
deriving DecidableEq, Repr

/-- Result of a `process` run: the report lines written to stdout, the
outcome, and (when the loop completed) the final loop state and the latest
change number, for stating properties of the finished record sequence. -/
structure PRes where
  printed : List (List Char)
  outcome : Outcome
  st : LoopSt
  latest : Nat
deriving DecidableEq, Repr

/-- `'%d@%s' % (cl_from, cl_from_owner)` — the `frec` string of the render
loop. -/
def frecOf (r : LineRec) : List Char :=
  natToChars r.cl_from ++ '@' :: r.cl_from_owner

/-- `'%d@%s' % (cl_to, cl_to_owner)` — the `trec` string of the render
loop. -/
def trecOf (r : LineRec) : List Char :=
  natToChars r.cl_to ++ '@' :: r.cl_to_owner

/-- The change/owner column `clr` of a record: `frec` for a present record,
`frec ... trec` for a deleted one. -/
def clrOf (r : LineRec) : List Char :=
  if r.rtype = "present" then frecOf r
  else frecOf r ++ (" ... ".data) ++ trecOf r

/-- The line-number column: the right-justified line number for a present
record, a right-justified dash for a deleted one. -/
def lnumOf (w : Nat) (r : LineRec) : List Char :=
  if r.rtype = "present" then padLeftTo w (natToChars r.lineno)
  else padLeftTo w ['-']

/-- `'%s %-*s %s %s' % (lnum, clr_len, clr, sep, text)` — one rendered
report line. -/
def renderRec (w clr_len : Nat) (r : LineRec) : List Char :=
  lnumOf w r ++ ' ' :: (padRightTo clr_len (clrOf r) ++ ' ' :: (r.sep ++ ' ' :: r.text))

/-- Lines 320-322 of the source: the shared field width of the change/owner
column, from the final column maxima. -/
def clrLenOf (st : LoopSt) : Nat :=
  st.cl_to_max_digits + st.cl_to_owner_max_len + 1 +
    (st.cl_from_max_digits + st.cl_from_owner_max_len + 1) + 5

/-- `process(ifn)` from the split annotate output on: header check,
terminator check, latest-change extraction, the record-building loop, then
the report (header, one line per record, header again).  `math.log10` of a
zero line-number counter raises after the header has been printed. -/
def processLines (describe : Nat → Int × List Char) (lines : List (List Char)) : PRes :=
  if containsSubL ("info:".data) (lines.headD []) then
    match exitCheck lines with
    | Except.error (LoopErr.fatalE m) => ⟨[], Outcome.fatal m, initSt, 0⟩
    | Except.error (LoopErr.crashE m) => ⟨[], Outcome.crash m, initSt, 0⟩
    | Except.ok body =>
      match searchLatest (lines.headD []) with
      | none => ⟨[], Outcome.fatal ("cannot find the latest change list number"), initSt, 0⟩
      | some latest =>
        match runBody describe latest initSt body with
        | Except.error (LoopErr.fatalE m) => ⟨[], Outcome.fatal m, initSt, latest⟩
        | Except.error (LoopErr.crashE m) => ⟨[], Outcome.crash m, initSt, latest⟩
        | Except.ok st =>
          if st.lineno = 0 then
            ⟨[stripL (lines.headD [])], Outcome.crash ("math domain error"), st, latest⟩
          else
            ⟨stripL (lines.headD []) ::
                st.data.map (renderRec (digits10 st.lineno) (clrLenOf st)) ++
                  [stripL (lines.headD [])],
             Outcome.ok, st, latest⟩
  else ⟨[], Outcome.fatal ("cannot find info: record"), initSt, 0⟩

/-- `process(ifn)` given the `(returncode, output)` of its
`p4 -s annotate` command and the `p4 describe` oracle. -/
def process (annotateRes : Int × List Char) (describe : Nat → Int × List Char) : PRes :=
  if annotateRes.1 ≠ 0 then ⟨[], Outcome.fatal ("command failed"), initSt, 0⟩
  else processLines describe (splitLines annotateRes.2)

/-- The records of the run that were classified present, in order. -/
def presentRecs (l : List LineRec) : List LineRec :=
  l.filter (fun r => r.rtype == "present")

/-! ### Decimal rendering: length and round-trip -/

theorem digitChar_toNat {d : Nat} (h : d < 10) : (digitChar d).toNat = 48 + d := by
  interval_cases d <;> decide

theorem digitChar_isDigit {d : Nat} (h : d < 10) : (digitChar d).isDigit = true := by
  interval_cases d <;> decide

theorem natToCharsAux_eq_digits :
    ∀ fuel n, n ≤ fuel → natToCharsAux fuel n = (Nat.digits 10 n).reverse.map digitChar := by
  intro fuel
  induction fuel with
  | zero =>
    intro n hn
    interval_cases n
    simp [natToCharsAux]
  | succ fuel ih =>
    intro n hn
    by_cases h0 : n = 0
    · subst h0; simp [natToCharsAux]
    · have hdiv : n / 10 ≤ fuel := by
        have : n / 10 < n := Nat.div_lt_self (Nat.pos_of_ne_zero h0) (by omega)
        omega
      have hrec := ih (n / 10) hdiv
      rw [natToCharsAux, if_neg h0, hrec,
        Nat.digits_def' (b := 10) (by omega) (Nat.pos_of_ne_zero h0)]
      simp

theorem natToChars_eq_digits {n : Nat} (hn : n ≠ 0) :
    natToChars n = (Nat.digits 10 n).reverse.map digitChar := by
  rw [natToChars, if_neg hn]
  exact natToCharsAux_eq_digits n n le_rfl

theorem natToChars_length {n : Nat} (hn : n ≠ 0) :
    (natToChars n).length = digits10 n := by
  rw [natToChars, if_neg hn]
  rfl

/-- For `n ≥ 1` the digit count is `int(math.log10 n) + 1`, the formula the
script uses. -/
theorem digits10_eq_log {n : Nat} (hn : n ≠ 0) : digits10 n = Nat.log 10 n + 1 := by
  rw [← natToChars_length hn, natToChars_eq_digits hn]
  simp [Nat.digits_len 10 n (by omega) hn]

theorem natToChars_all_digits {n : Nat} {c : Char} (hc : c ∈ natToChars n) :
    c.isDigit = true := by
  by_cases h0 : n = 0
  · subst h0
    simp [natToChars] at hc
    subst hc; decide
  · rw [natToChars_eq_digits h0] at hc
    simp only [List.mem_map, List.mem_reverse] at hc
    obtain ⟨d, hd, rfl⟩ := hc
    exact digitChar_isDigit (Nat.digits_lt_base (by omega) hd)

theorem foldl_digits_eval (ds : List Nat) (hds : ∀ d ∈ ds, d < 10) :
    ∀ a, ((ds.reverse.map digitChar).foldl (fun a c => a * 10 + (c.toNat - 48)) a)
      = a * 10 ^ ds.length + Nat.ofDigits 10 ds := by
  induction ds with
  | nil => intro a; simp [Nat.ofDigits]
  | cons d ds ih =>
    intro a
    have hd : d < 10 := hds d (by simp)
    have hds' : ∀ x ∈ ds, x < 10 := fun x hx => hds x (by simp [hx])
    simp only [List.reverse_cons, List.map_append, List.map_cons, List.map_nil,
      List.foldl_append, List.foldl_cons, List.foldl_nil]
    rw [ih hds', digitChar_toNat hd, Nat.ofDigits_cons]
    have : 48 + d - 48 = d := by omega
    rw [this, List.length_cons, pow_succ]
    ring

theorem digitsToNat_natToChars (n : Nat) : digitsToNat (natToChars n) = n := by
  by_cases h0 : n = 0
  · subst h0; decide
  · rw [natToChars_eq_digits h0, digitsToNat,
      foldl_digits_eval _ (fun d hd => Nat.digits_lt_base (by omega) hd) 0]
    simp [Nat.ofDigits_digits]

/-! ### Properties of the memoizing owner lookup -/

theorem get_cl_owner_spec {d : Nat → Int × List Char} {st : LoopSt} {cln : Nat}
    {o : List Char} {st' : LoopSt}
    (h : get_cl_owner d st cln = Except.ok (o, st')) :
    (assocFind st.cl_owner cln = some o ∧ st' = st) ∨
      (assocFind st.cl_owner cln = none ∧ get_owner (d cln) cln = Except.ok o ∧
        st' = { st with cl_owner := st.cl_owner ++ [(cln, o)],
                        lookups := st.lookups ++ [cln] }) := by
  unfold get_cl_owner at h
  cases hfind : assocFind st.cl_owner cln with
  | some o' =>
    simp only [hfind] at h
    cases h
    exact Or.inl ⟨rfl, rfl⟩
  | none =>
    simp only [hfind] at h
    cases hget : get_owner (d cln) cln with
    | error m =>
      simp only [hget] at h
      exact Except.noConfusion h
    | ok o' =>
      simp only [hget] at h
      cases h
      exact Or.inr ⟨rfl, rfl, rfl⟩

theorem get_cl_owner_frame {d : Nat → Int × List Char} {st : LoopSt} {cln : Nat}
    {o : List Char} {st' : LoopSt}
    (h : get_cl_owner d st cln = Except.ok (o, st')) :
    st'.data = st.data ∧ st'.lineno = st.lineno ∧
      st'.cl_to_max_digits = st.cl_to_max_digits ∧
      st'.cl_from_max_digits = st.cl_from_max_digits ∧
      st'.cl_to_owner_max_len = st.cl_to_owner_max_len ∧
      st'.cl_from_owner_max_len = st.cl_from_owner_max_len := by
  rcases get_cl_owner_spec h with ⟨_, rfl⟩ | ⟨_, _, rfl⟩ <;> exact ⟨rfl, rfl, rfl, rfl, rfl, rfl⟩

/-- A successful request whose change number is already cached returns the
cached value and leaves the state (in particular the list of issued
lookup commands) unchanged. -/
theorem get_cl_owner_cached {d : Nat → Int × List Char} {st : LoopSt} {cln : Nat}
    {o : List Char} (h : assocFind st.cl_owner cln = some o) :
    get_cl_owner d st cln = Except.ok (o, st) := by
  unfold get_cl_owner
  rw [h]

/-! ### Characterization of one loop iteration and loop induction -/

theorem stepLine_ok {d : Nat → Int × List Char} {latest : Nat} {st : LoopSt}
    {line : List Char} {st' : LoopSt}
    (h : stepLine d latest st line = Except.ok st') :
    ∃ cl_from cl_to text cl_from_owner cl_to_owner st1 st2,
      searchText (stripL line) = some (cl_from, cl_to, text) ∧
      get_cl_owner d st cl_from = Except.ok (cl_from_owner, st1) ∧
      get_cl_owner d st1 cl_to = Except.ok (cl_to_owner, st2) ∧
      cl_to ≠ 0 ∧ cl_from ≠ 0 ∧
      st' = stepUpdate latest cl_from cl_to cl_from_owner cl_to_owner text st2 := by
  unfold stepLine at h
  cases hs : searchText (stripL line) with
  | none =>
    simp only [hs] at h
    exact Except.noConfusion h
  | some v =>
    obtain ⟨cl_from, cl_to, text⟩ := v
    simp only [hs] at h
    cases h1 : get_cl_owner d st cl_from with
    | error m =>
      simp only [h1] at h
      exact Except.noConfusion h
    | ok p1 =>
      obtain ⟨cl_from_owner, st1⟩ := p1
      simp only [h1] at h
      cases h2 : get_cl_owner d st1 cl_to with
      | error m =>
        simp only [h2] at h
        exact Except.noConfusion h
      | ok p2 =>
        obtain ⟨cl_to_owner, st2⟩ := p2
        simp only [h2] at h
        by_cases hz : cl_to = 0 ∨ cl_from = 0
        · rw [if_pos hz] at h
          exact Except.noConfusion h
        · rw [if_neg hz] at h
          cases h
          push_neg at hz
          exact ⟨cl_from, cl_to, text, cl_from_owner, cl_to_owner, st1, st2,
            rfl, h1, h2, hz.1, hz.2, rfl⟩

theorem stepUpdate_data (latest cl_from cl_to : Nat)
    (cl_from_owner cl_to_owner text : List Char) (st2 : LoopSt) :
    (stepUpdate latest cl_from cl_to cl_from_owner cl_to_owner text st2).data =
      st2.data ++ [stepRec latest cl_from cl_to cl_from_owner cl_to_owner text
        (if cl_from = latest ∨ cl_to = latest then st2.lineno + 1 else st2.lineno)] := rfl

theorem runBody_pres {d : Nat → Int × List Char} {latest : Nat} {P : LoopSt → Prop}
    (hstep : ∀ st line st', stepLine d latest st line = Except.ok st' → P st → P st') :
    ∀ body st st', runBody d latest st body = Except.ok st' → P st → P st' := by
  intro body
  induction body with
  | nil =>
    intro st st' h hp
    unfold runBody at h
    cases h
    exact hp
  | cons l ls ih =>
    intro st st' h hp
    unfold runBody at h
    cases hstep' : stepLine d latest st l with
    | error e =>
      simp only [hstep'] at h
      exact Except.noConfusion h
    | ok st1 =>
      simp only [hstep'] at h
      exact ih st1 st' h (hstep st l st1 hstep' hp)

theorem stepRec_rtype (latest f t : Nat) (fo tow tx : List Char) (ln : Nat) :
    (stepRec latest f t fo tow tx ln).rtype =
      if f = latest ∨ t = latest then "present" else "deleted" := rfl

theorem stepRec_lineno (latest f t : Nat) (fo tow tx : List Char) (ln : Nat) :
    (stepRec latest f t fo tow tx ln).lineno = ln := rfl

theorem stepUpdate_lineno (latest f t : Nat) (fo tow tx : List Char) (st2 : LoopSt) :
    (stepUpdate latest f t fo tow tx st2).lineno =
      if f = latest ∨ t = latest then st2.lineno + 1 else st2.lineno := rfl

theorem present_ne_deleted : ("present" : String) ≠ "deleted" := by decide

/-! ### Classification invariant (claim C1) -/

theorem step_pres_class {d : Nat → Int × List Char} {latest : Nat} :
    ∀ st line st', stepLine d latest st line = Except.ok st' →
      (∀ r ∈ st.data,
        (r.rtype = "present" ↔ (r.cl_from = latest ∨ r.cl_to = latest)) ∧
          (¬(r.cl_from = latest ∨ r.cl_to = latest) → r.rtype = "deleted")) →
      (∀ r ∈ st'.data,
        (r.rtype = "present" ↔ (r.cl_from = latest ∨ r.cl_to = latest)) ∧
          (¬(r.cl_from = latest ∨ r.cl_to = latest) → r.rtype = "deleted")) := by
  intro st line st' h hp
  obtain ⟨f, t, tx, fo, tow, st1, st2, hs, h1, h2, ht0, hf0, hst⟩ := stepLine_ok h
  have hdd : st2.data = st.data := by
    rw [(get_cl_owner_frame h2).1, (get_cl_owner_frame h1).1]
  subst hst
  intro r hr
  rw [stepUpdate_data] at hr
  rcases List.mem_append.1 hr with hold | hnew
  · exact hp r (hdd ▸ hold)
  · have hre := List.mem_singleton.1 hnew
    subst hre
    by_cases hc : f = latest ∨ t = latest
    · refine ⟨?_, fun hnc => absurd hc hnc⟩
      rw [stepRec_rtype, if_pos hc]
      simpa using hc
    · refine ⟨?_, fun _ => by rw [stepRec_rtype, if_neg hc]⟩
      rw [stepRec_rtype, if_neg hc]
      constructor
      · intro habs
        exact absurd habs.symm present_ne_deleted
      · intro hc'
        exact absurd hc' hc

/-- C1: for every record built by a successful run of the record-building
loop, the status is `present` iff `cl_from` or `cl_to` equals the
latest-change number, and otherwise the status is `deleted`. -/
theorem c1_status_iff_latest {d : Nat → Int × List Char} {latest : Nat}
    {body : List (List Char)} {st : LoopSt} {r : LineRec}
    (hrun : runBody d latest initSt body = Except.ok st) (hr : r ∈ st.data) :
    (r.rtype = "present" ↔ (r.cl_from = latest ∨ r.cl_to = latest)) ∧
      (¬(r.cl_from = latest ∨ r.cl_to = latest) → r.rtype = "deleted") := by
  have hall := runBody_pres step_pres_class body initSt st hrun
    (by intro r hr; exact absurd hr (List.not_mem_nil r))
  exact hall r hr

/-! ### Line-number invariant (claims C2 and C10) -/

theorem step_pres_numbering {d : Nat → Int × List Char} {latest : Nat} :
    ∀ st line st', stepLine d latest st line = Except.ok st' →
      (presentRecs st.data).map (fun r => r.lineno) = List.range' 1 st.lineno →
      (presentRecs st'.data).map (fun r => r.lineno) = List.range' 1 st'.lineno := by
  intro st line st' h hp
  obtain ⟨f, t, tx, fo, tow, st1, st2, hs, h1, h2, ht0, hf0, hst⟩ := stepLine_ok h
  have hdd : st2.data = st.data := by
    rw [(get_cl_owner_frame h2).1, (get_cl_owner_frame h1).1]
  have hln : st2.lineno = st.lineno := by
    rw [(get_cl_owner_frame h2).2.1, (get_cl_owner_frame h1).2.1]
  subst hst
  rw [stepUpdate_data, stepUpdate_lineno, presentRecs, List.filter_append]
  by_cases hc : f = latest ∨ t = latest
  · rw [if_pos hc]
    have hfil : List.filter (fun r => r.rtype == "present")
        [stepRec latest f t fo tow tx (st2.lineno + 1)] =
        [stepRec latest f t fo tow tx (st2.lineno + 1)] := by
      simp [List.filter, stepRec_rtype, if_pos hc]
    rw [hfil, List.map_append, ← presentRecs, hdd, hln, hp, List.range'_concat]
    simp [stepRec_lineno, hln]
    omega
  · rw [if_neg hc]
    have hfil : List.filter (fun r => r.rtype == "present")
        [stepRec latest f t fo tow tx st2.lineno] = [] := by
      simp [List.filter, stepRec_rtype, if_neg hc]
    rw [hfil, List.append_nil, ← presentRecs, hdd, hln, hp]

theorem runBody_numbering {d : Nat → Int × List Char} {latest : Nat}
    {body : List (List Char)} {st : LoopSt}
    (hrun : runBody d latest initSt body = Except.ok st) :
    (presentRecs st.data).map (fun r => r.lineno) = List.range' 1 st.lineno :=
  runBody_pres step_pres_numbering body initSt st hrun (by simp [initSt, presentRecs])

/-- C2: after a successful run of the record-building loop, the number of
records classified present equals the final line-number counter, the line
numbers of the present records in record order are exactly `1..N`, and a
record that is not present is rendered with a right-justified dash in place
of a line number. -/
theorem c2_present_numbering {d : Nat → Int × List Char} {latest : Nat}
    {body : List (List Char)} {st : LoopSt} {r : LineRec}
    (hrun : runBody d latest initSt body = Except.ok st) :
    st.lineno = (presentRecs st.data).length ∧
      (presentRecs st.data).map (fun r => r.lineno) = List.range' 1 st.lineno ∧
      (r ∈ st.data → r.rtype ≠ "present" →
        lnumOf (digits10 st.lineno) r = padLeftTo (digits10 st.lineno) ['-']) := by
  have hmap := runBody_numbering hrun
  refine ⟨?_, hmap, ?_⟩
  · have := congrArg List.length hmap
    simpa using this.symm
  · intro _ hne
    rw [lnumOf, if_neg hne]

/-! ### Column-width invariant (claim C4) -/

theorem step_pres_width {d : Nat → Int × List Char} {latest : Nat} :
    ∀ st line st', stepLine d latest st line = Except.ok st' →
      (∀ r ∈ st.data, r.cl_from ≠ 0 ∧ r.cl_to ≠ 0 ∧
        digits10 r.cl_from ≤ st.cl_from_max_digits ∧
        digits10 r.cl_to ≤ st.cl_to_max_digits ∧
        r.cl_from_owner.length ≤ st.cl_from_owner_max_len ∧
        r.cl_to_owner.length ≤ st.cl_to_owner_max_len) →
      (∀ r ∈ st'.data, r.cl_from ≠ 0 ∧ r.cl_to ≠ 0 ∧
        digits10 r.cl_from ≤ st'.cl_from_max_digits ∧
        digits10 r.cl_to ≤ st'.cl_to_max_digits ∧
        r.cl_from_owner.length ≤ st'.cl_from_owner_max_len ∧
        r.cl_to_owner.length ≤ st'.cl_to_owner_max_len) := by
  intro st line st' h hp
  obtain ⟨f, t, tx, fo, tow, st1, st2, hs, h1, h2, ht0, hf0, hst⟩ := stepLine_ok h
  obtain ⟨hdd1, _, ha1, hb1, hc1, he1⟩ := get_cl_owner_frame h1
  obtain ⟨hdd2, _, ha2, hb2, hc2, he2⟩ := get_cl_owner_frame h2
  subst hst
  intro r hr
  rw [stepUpdate_data] at hr
  have hto : (stepUpdate latest f t fo tow tx st2).cl_to_max_digits
      = max st2.cl_to_max_digits (digits10 t) := rfl
  have hfrom : (stepUpdate latest f t fo tow tx st2).cl_from_max_digits
      = max st2.cl_from_max_digits (digits10 f) := rfl
  have htol : (stepUpdate latest f t fo tow tx st2).cl_to_owner_max_len
      = max st2.cl_to_owner_max_len tow.length := rfl
  have hfroml : (stepUpdate latest f t fo tow tx st2).cl_from_owner_max_len
      = max st2.cl_from_owner_max_len fo.length := rfl
  rw [hto, hfrom, htol, hfroml]
  rcases List.mem_append.1 hr with hold | hnew
  · obtain ⟨hx0, hx1, hx2, hx3, hx4, hx5⟩ := hp r (by rw [← hdd1, ← hdd2]; exact hold)
    have e1 : st.cl_to_max_digits = st2.cl_to_max_digits := by rw [ha2, ha1]
    have e2 : st.cl_from_max_digits = st2.cl_from_max_digits := by rw [hb2, hb1]
    have e3 : st.cl_to_owner_max_len = st2.cl_to_owner_max_len := by rw [hc2, hc1]
    have e4 : st.cl_from_owner_max_len = st2.cl_from_owner_max_len := by rw [he2, he1]
    exact ⟨hx0, hx1,
      le_trans (le_of_le_of_eq hx2 e2) (le_max_left _ _),
      le_trans (le_of_le_of_eq hx3 e1) (le_max_left _ _),
      le_trans (le_of_le_of_eq hx4 e4) (le_max_left _ _),
      le_trans (le_of_le_of_eq hx5 e3) (le_max_left _ _)⟩
  · have hre := List.mem_singleton.1 hnew
    subst hre
    exact ⟨hf0, ht0, le_max_right _ _, le_max_right _ _, le_max_right _ _, le_max_right _ _⟩

theorem runBody_width {d : Nat → Int × List Char} {latest : Nat}
    {body : List (List Char)} {st : LoopSt}
    (hrun : runBody d latest initSt body = Except.ok st) :
    ∀ r ∈ st.data, r.cl_from ≠ 0 ∧ r.cl_to ≠ 0 ∧
      digits10 r.cl_from ≤ st.cl_from_max_digits ∧
      digits10 r.cl_to ≤ st.cl_to_max_digits ∧
      r.cl_from_owner.length ≤ st.cl_from_owner_max_len ∧
      r.cl_to_owner.length ≤ st.cl_to_owner_max_len :=
  runBody_pres step_pres_width body initSt st hrun
    (by intro r hr; exact absurd hr (List.not_mem_nil r))

/-- C4: the shared change/owner field width computed from the final column
maxima accommodates the change/owner column of every record, in the
present layout, in the deleted layout, and in the layout the record
actually uses — nothing is ever truncated. -/
theorem c4_width_sufficient {d : Nat → Int × List Char} {latest : Nat}
    {body : List (List Char)} {st : LoopSt} {r : LineRec}
    (hrun : runBody d latest initSt body = Except.ok st) (hr : r ∈ st.data) :
    (frecOf r).length ≤ clrLenOf st ∧
      (frecOf r ++ (" ... ".data) ++ trecOf r).length ≤ clrLenOf st ∧
      (clrOf r).length ≤ clrLenOf st := by
  obtain ⟨hf0, ht0, hfd, htd, hfl, htl⟩ := runBody_width hrun r hr
  have hflen : (frecOf r).length = digits10 r.cl_from + (r.cl_from_owner.length + 1) := by
    rw [frecOf, List.length_append, List.length_cons, natToChars_length hf0]
  have htlen : (trecOf r).length = digits10 r.cl_to + (r.cl_to_owner.length + 1) := by
    rw [trecOf, List.length_append, List.length_cons, natToChars_length ht0]
  have hell : (" ... ".data).length = 5 := rfl
  have h1 : (frecOf r).length ≤ clrLenOf st := by
    rw [hflen, clrLenOf]; omega
  have h2 : (frecOf r ++ (" ... ".data) ++ trecOf r).length ≤ clrLenOf st := by
    rw [List.length_append, List.length_append, hflen, htlen, hell, clrLenOf]; omega
  refine ⟨h1, h2, ?_⟩
  rw [clrOf]
  by_cases hc : r.rtype = "present"
  · rw [if_pos hc]; exact h1
  · rw [if_neg hc]; exact h2

/-! ### Cache invariant (claim C3) -/

theorem assocFind_append (l1 l2 : List (Nat × List Char)) (c : Nat) :
    assocFind (l1 ++ l2) c =
      match assocFind l1 c with
      | some v => some v
      | none => assocFind l2 c := by
  induction l1 with
  | nil => simp [assocFind]
  | cons p l1 ih =>
    obtain ⟨k, v⟩ := p
    by_cases hk : k = c
    · simp [assocFind, if_pos hk]
    · simp [assocFind, if_neg hk, ih]

theorem get_cl_owner_keyiff {d : Nat → Int × List Char} {st : LoopSt} {cln : Nat}
    {o : List Char} {st' : LoopSt}
    (h : get_cl_owner d st cln = Except.ok (o, st')) :
    ∀ c, (assocFind st'.cl_owner c).isSome = true ↔
      ((assocFind st.cl_owner c).isSome = true ∨ c = cln) := by
  intro c
  rcases get_cl_owner_spec h with ⟨hfind, rfl⟩ | ⟨hfind, _, rfl⟩
  · constructor
    · exact Or.inl
    · rintro (hk | rfl)
      · exact hk
      · rw [hfind]; rfl
  · show (assocFind (st.cl_owner ++ [(cln, o)]) c).isSome = true ↔ _
    rw [assocFind_append]
    cases hc : assocFind st.cl_owner c with
    | some v => simp
    | none =>
      simp only [Option.isSome_none, Bool.false_eq_true, false_or]
      by_cases hcc : cln = c
      · subst hcc; simp [assocFind]
      · simp [assocFind, if_neg hcc]
        exact fun hcc' => absurd hcc'.symm hcc

theorem get_cl_owner_lkinv {d : Nat → Int × List Char} {st : LoopSt} {cln : Nat}
    {o : List Char} {st' : LoopSt}
    (h : get_cl_owner d st cln = Except.ok (o, st'))
    (hnod : st.lookups.Nodup)
    (hmem : ∀ c, c ∈ st.lookups ↔ (assocFind st.cl_owner c).isSome = true) :
    st'.lookups.Nodup ∧
      (∀ c, c ∈ st'.lookups ↔ (assocFind st'.cl_owner c).isSome = true) := by
  have hkey := get_cl_owner_keyiff h
  rcases get_cl_owner_spec h with ⟨hfind, rfl⟩ | ⟨hfind, _, hst⟩
  · exact ⟨hnod, hmem⟩
  · have hnotin : cln ∉ st.lookups := by
      intro hin
      have := (hmem cln).1 hin
      rw [hfind] at this
      exact Bool.noConfusion this
    constructor
    · rw [hst]
      simp only [List.nodup_append, List.nodup_cons, List.nodup_nil, and_true,
        List.disjoint_singleton]
      exact ⟨hnod, by simp, hnotin⟩
    · intro c
      rw [hkey c, hst]
      simp only [List.mem_append, List.mem_singleton]
      rw [hmem c]

theorem step_pres_cache {d : Nat → Int × List Char} {latest : Nat} :
    ∀ st line st', stepLine d latest st line = Except.ok st' →
      (st.lookups.Nodup ∧
        (∀ c, c ∈ st.lookups ↔ (assocFind st.cl_owner c).isSome = true) ∧
        (∀ c, (assocFind st.cl_owner c).isSome = true ↔
          ∃ r ∈ st.data, r.cl_from = c ∨ r.cl_to = c)) →
      (st'.lookups.Nodup ∧
        (∀ c, c ∈ st'.lookups ↔ (assocFind st'.cl_owner c).isSome = true) ∧
        (∀ c, (assocFind st'.cl_owner c).isSome = true ↔
          ∃ r ∈ st'.data, r.cl_from = c ∨ r.cl_to = c)) := by
  intro st line st' h hp
  obtain ⟨hnod, hmem, hdata⟩ := hp
  obtain ⟨f, t, tx, fo, tow, st1, st2, hs, h1, h2, ht0, hf0, hst⟩ := stepLine_ok h
  have hdd1 : st1.data = st.data := (get_cl_owner_frame h1).1
  have hdd2 : st2.data = st1.data := (get_cl_owner_frame h2).1
  obtain ⟨hnod1, hmem1⟩ := get_cl_owner_lkinv h1 hnod hmem
  obtain ⟨hnod2, hmem2⟩ := get_cl_owner_lkinv h2 hnod1 hmem1
  have hkey1 := get_cl_owner_keyiff h1
  have hkey2 := get_cl_owner_keyiff h2
  subst hst
  have howner : (stepUpdate latest f t fo tow tx st2).cl_owner = st2.cl_owner := rfl
  have hlk : (stepUpdate latest f t fo tow tx st2).lookups = st2.lookups := rfl
  refine ⟨by rw [hlk]; exact hnod2, by rw [hlk, howner]; exact hmem2, ?_⟩
  intro c
  rw [howner, stepUpdate_data, hkey2 c, hkey1 c, hdata c]
  constructor
  · rintro ((⟨r, hrm, hror⟩ | rfl) | rfl)
    · exact ⟨r, List.mem_append.2 (Or.inl (by rw [hdd2, hdd1]; exact hrm)), hror⟩
    · exact ⟨_, List.mem_append.2 (Or.inr (List.mem_singleton.2 rfl)), Or.inl rfl⟩
    · exact ⟨_, List.mem_append.2 (Or.inr (List.mem_singleton.2 rfl)), Or.inr rfl⟩
  · rintro ⟨r, hrm, hror⟩
    rcases List.mem_append.1 hrm with hrold | hrnew
    · exact Or.inl (Or.inl ⟨r, by rw [← hdd1, ← hdd2]; exact hrold, hror⟩)
    · have := List.mem_singleton.1 hrnew
      subst this
      rcases hror with hf | ht
      · exact Or.inl (Or.inr hf.symm)
      · exact Or.inr ht.symm

/-- C3: after a successful run of the record-building loop starting from the
empty cache, the lookup commands actually issued are pairwise distinct, a
change number was looked up iff some record of the stream references it as
`cl_from` or `cl_to`, and a further request for any cached change number
returns the cached owner with no state change (no new lookup). -/
theorem c3_lookup_once {d : Nat → Int × List Char} {latest : Nat}
    {body : List (List Char)} {st : LoopSt} {c : Nat} {o : List Char}
    (hrun : runBody d latest initSt body = Except.ok st) :
    st.lookups.Nodup ∧
      (c ∈ st.lookups ↔ ∃ r ∈ st.data, r.cl_from = c ∨ r.cl_to = c) ∧
      (assocFind st.cl_owner c = some o → get_cl_owner d st c = Except.ok (o, st)) := by
  have hinv := runBody_pres step_pres_cache body initSt st hrun
    (by
      refine ⟨List.nodup_nil, ?_, ?_⟩
      · intro c
        simp [initSt, assocFind]
      · intro c
        simp [initSt, assocFind])
  obtain ⟨hnod, hmem, hdata⟩ := hinv
  exact ⟨hnod, by rw [hmem c, hdata c], fun hfind => get_cl_owner_cached hfind⟩

/-! ### Fatal errors print nothing (claim C7); crash on zero counter (claim C10) -/

/-- C7: whenever a run of `process` ends in a fatal error (the `err(...)`
paths: command failure, missing header, missing terminator, missing latest
change number, unrecognized body line, or a failed owner lookup), it does so
before any line of the report has been printed. -/
theorem c7_fatal_no_output (a : Int × List Char) (d : Nat → Int × List Char) (m : String) :
    (process a d).outcome = Outcome.fatal m → (process a d).printed = [] := by
  unfold process processLines
  repeat' split
  all_goals intro h
  all_goals first
    | rfl
    | exact Outcome.noConfusion h

theorem c7_fatal_no_output_witness :
    (process ((1 : Int), ("".data)) (fun _ => ((0 : Int), []))).printed = [] :=
  c7_fatal_no_output _ _ ("command failed") (by decide)

/-- C10: for a well-formed annotation stream (header found, terminator
found, latest change number found, every body line parsed and resolved)
in which no record is classified present, the line-number counter is still
0 when `math.log10(lineno)` is evaluated, so the run ends in an uncaught
`ValueError` (a `crash`, not the single-diagnostic `fatal` exit), after
only the header line of the report has been printed. -/
theorem c10_crash_no_present {d : Nat → Int × List Char} {L body : List (List Char)}
    {latest : Nat} {st : LoopSt}
    (hinfo : containsSubL ("info:".data) (L.headD []) = true)
    (hexit : exitCheck L = Except.ok body)
    (hlatest : searchLatest (L.headD []) = some latest)
    (hrun : runBody d latest initSt body = Except.ok st)
    (hnone : ∀ r ∈ st.data, r.rtype ≠ "present") :
    (processLines d L).outcome = Outcome.crash ("math domain error") ∧
      (processLines d L).printed = [stripL (L.headD [])] := by
  have hmap := runBody_numbering hrun
  have hfil : presentRecs st.data = [] := by
    rw [presentRecs, List.filter_eq_nil_iff]
    intro r hr
    simpa using hnone r hr
  have hln : st.lineno = 0 := by
    rw [hfil] at hmap
    have : List.range' 1 st.lineno = [] := hmap.symm
    simpa using this
  have hres : processLines d L =
      ⟨[stripL (L.headD [])], Outcome.crash ("math domain error"), st, latest⟩ := by
    unfold processLines
    simp only [hinfo, if_true, hexit, hlatest, hrun, hln, if_pos]
  rw [hres]
  exact ⟨rfl, rfl⟩

theorem c10_crash_no_present_witness :
    (processLines (fun _ => ((1 : Int), []))
        (splitLines (("info: f#1 - edit change 5 (text)\nexit:").data))).outcome =
      Outcome.crash ("math domain error") ∧
    (processLines (fun _ => ((1 : Int), []))
        (splitLines (("info: f#1 - edit change 5 (text)\nexit:").data))).printed =
      [("info: f#1 - edit change 5 (text)").data] := by
  have h := @c10_crash_no_present (fun _ => ((1 : Int), []))
    (splitLines (("info: f#1 - edit change 5 (text)\nexit:").data))
    [] 5 initSt
    (by decide) rfl (by decide) rfl (by decide)
  exact ⟨h.1, by rw [h.2]; decide⟩

/-! ### A small concrete run used to instantiate the loop-level theorems -/

/-- Describe oracle answering `Change <cln> by u@h` for every change. -/
def demoDescribe (cln : Nat) : Int × List Char :=
  ((0 : Int), ("Change ".data) ++ natToChars cln ++ (" by u@h".data))

/-- Two body lines: one present (`3-7` against latest 7), one deleted
(`3-3`). -/
def demoBody : List (List Char) := [("text: 3-7:alpha").data, ("text: 3-3:keep").data]

/-- The present record of the demo run. -/
def demoRec1 : LineRec :=
  { cl_from := 3, cl_from_owner := ['u'], lineno := 1, sep := ['|'],
    text := ("alpha".data), cl_to := 7, cl_to_owner := ['u'], rtype := "present" }

/-- The deleted record of the demo run. -/
def demoRec2 : LineRec :=
  { cl_from := 3, cl_from_owner := ['u'], lineno := 1, sep := ['-'],
    text := ("keep".data), cl_to := 3, cl_to_owner := ['u'], rtype := "deleted" }

/-- The final loop state of the demo run. -/
def demoSt : LoopSt :=
  { data := [demoRec1, demoRec2],
    cl_owner := [(3, ['u']), (7, ['u'])],
    lookups := [3, 7],
    cl_to_max_digits := 1, cl_from_max_digits := 1,
    cl_to_owner_max_len := 1, cl_from_owner_max_len := 1, lineno := 1 }

theorem demo_run : runBody demoDescribe 7 initSt demoBody = Except.ok demoSt := rfl

theorem c1_status_iff_latest_witness :
    (demoRec2.rtype = "present" ↔ (demoRec2.cl_from = 7 ∨ demoRec2.cl_to = 7)) ∧
      (¬(demoRec2.cl_from = 7 ∨ demoRec2.cl_to = 7) → demoRec2.rtype = "deleted") :=
  @c1_status_iff_latest demoDescribe 7 demoBody demoSt demoRec2 demo_run (by decide)

theorem c2_present_numbering_witness :
    demoSt.lineno = (presentRecs demoSt.data).length ∧
      (presentRecs demoSt.data).map (fun r => r.lineno) = List.range' 1 demoSt.lineno ∧
      lnumOf (digits10 demoSt.lineno) demoRec2 = padLeftTo (digits10 demoSt.lineno) ['-'] := by
  have h := @c2_present_numbering demoDescribe 7 demoBody demoSt demoRec2 demo_run
  exact ⟨h.1, h.2.1, h.2.2 (by decide) (by decide)⟩

theorem c3_lookup_once_witness :
    demoSt.lookups.Nodup ∧
      ((3 ∈ demoSt.lookups) ↔ ∃ r ∈ demoSt.data, r.cl_from = 3 ∨ r.cl_to = 3) ∧
      get_cl_owner demoDescribe demoSt 3 = Except.ok ((['u'] : List Char), demoSt) := by
  have h := @c3_lookup_once demoDescribe 7 demoBody demoSt 3 (['u'] : List Char) demo_run
  exact ⟨h.1, h.2.1, h.2.2 (by decide)⟩

theorem c4_width_sufficient_witness :
    (frecOf demoRec1).length ≤ clrLenOf demoSt ∧
      (frecOf demoRec1 ++ (" ... ".data) ++ trecOf demoRec1).length ≤ clrLenOf demoSt ∧
      (clrOf demoRec1).length ≤ clrLenOf demoSt :=
  @c4_width_sufficient demoDescribe 7 demoBody demoSt demoRec1 demo_run (by decide)

/-! ### String toolkit: prefixes, takeWhile/dropWhile over appends, strip -/

theorem startsWithL_append_self (p r : List Char) : startsWithL p (p ++ r) = true := by
  induction p with
  | nil => rfl
  | cons c cs ih => simp [startsWithL, ih]

theorem takeWhile_append_of_all {p : Char → Bool} :
    ∀ (xs : List Char) {y : Char} (ys : List Char),
      (∀ c ∈ xs, p c = true) → p y = false → (xs ++ y :: ys).takeWhile p = xs := by
  intro xs
  induction xs with
  | nil =>
    intro y ys _ hy
    simp [List.takeWhile_cons, hy]
  | cons x xs ih =>
    intro y ys hall hy
    have hx : p x = true := hall x (by simp)
    simp only [List.cons_append, List.takeWhile_cons_of_pos hx]
    rw [ih ys (fun c hc => hall c (by simp [hc])) hy]

theorem dropWhile_append_cons {p : Char → Bool} :
    ∀ (xs : List Char) {y : Char} (ys : List Char), p y = false →
      (xs ++ y :: ys).dropWhile p = xs.dropWhile p ++ y :: ys := by
  intro xs
  induction xs with
  | nil =>
    intro y ys hy
    simp [List.dropWhile_cons, hy]
  | cons x xs ih =>
    intro y ys hy
    by_cases hx : p x = true
    · simp only [List.cons_append, List.dropWhile_cons_of_pos hx]
      exact ih ys hy
    · have hx' : p x = false := by
        cases hpx : p x
        · rfl
        · exact absurd hpx hx
      simp [List.dropWhile_cons, hx']

theorem rstripL_append_cons (pre : List Char) {y : Char} (ys : List Char)
    (hy : isPySpace y = false) : rstripL (pre ++ y :: ys) = pre ++ y :: rstripL ys := by
  rw [rstripL, rstripL]
  have hrev : (pre ++ y :: ys).reverse = ys.reverse ++ y :: pre.reverse := by
    simp
  rw [hrev, dropWhile_append_cons ys.reverse pre.reverse hy]
  simp

theorem natToChars_ne_nil (n : Nat) : natToChars n ≠ [] := by
  by_cases h0 : n = 0
  · subst h0; simp [natToChars]
  · rw [natToChars_eq_digits h0]
    simp [Nat.digits_ne_nil_iff_ne_zero, h0]

theorem beq_false_of_digit {c x : Char} (h : c.isDigit = true) (hx : x.isDigit = false) :
    (c == x) = false := by
  cases hc : c == x
  · rfl
  · have := eq_of_beq hc
    subst this
    rw [h] at hx
    exact Bool.noConfusion hx

theorem isPySpace_false_of_digit {c : Char} (h : c.isDigit = true) : isPySpace c = false := by
  rw [isPySpace,
    beq_false_of_digit h (by decide), beq_false_of_digit h (by decide),
    beq_false_of_digit h (by decide), beq_false_of_digit h (by decide),
    beq_false_of_digit h (by decide), beq_false_of_digit h (by decide)]
  rfl

/-! ### Verbatim-payload lemmas (claim C9) -/

/-- A well-formed body line: the `text: ` keyword, a decimal revision range
and a payload, exactly as the annotate command emits it. -/
def mkTextLine (f t : Nat) (payload : List Char) : List Char :=
  ("text: ".data) ++ natToChars f ++ '-' :: (natToChars t ++ ':' :: payload)

theorem matchTextAt_shape (D1 D2 P : List Char)
    (h1 : D1 ≠ []) (h1d : ∀ c ∈ D1, c.isDigit = true)
    (h2 : D2 ≠ []) (h2d : ∀ c ∈ D2, c.isDigit = true) :
    matchTextAt (("text: ".data) ++ D1 ++ '-' :: (D2 ++ ':' :: P)) =
      some (digitsToNat D1, digitsToNat D2, P) := by
  obtain ⟨c1, D1', rfl⟩ : ∃ c1 D1', D1 = c1 :: D1' := by
    cases D1 with
    | nil => exact absurd rfl h1
    | cons a b => exact ⟨a, b, rfl⟩
  obtain ⟨c2, D2', rfl⟩ : ∃ c2 D2', D2 = c2 :: D2' := by
    cases D2 with
    | nil => exact absurd rfl h2
    | cons a b => exact ⟨a, b, rfl⟩
  have hc1 : startsWithL ("text:".data)
      (("text: ".data) ++ (c1 :: D1') ++ '-' :: ((c2 :: D2') ++ ':' :: P)) = true := by
    have hshape : ("text: ".data) ++ (c1 :: D1') ++ '-' :: ((c2 :: D2') ++ ':' :: P)
        = ("text:".data) ++ (' ' :: ((c1 :: D1') ++ '-' :: ((c2 :: D2') ++ ':' :: P))) := by
      simp
    rw [hshape, startsWithL_append_self]
  have hdrop5 : (("text: ".data) ++ (c1 :: D1') ++ '-' :: ((c2 :: D2') ++ ':' :: P)).drop 5
      = ' ' :: ((c1 :: D1') ++ '-' :: ((c2 :: D2') ++ ':' :: P)) := rfl
  have hws : (' ' :: ((c1 :: D1') ++ '-' :: ((c2 :: D2') ++ ':' :: P))).takeWhile isPySpace
      = [' '] := by
    rw [List.takeWhile_cons_of_pos (by decide)]
    have : ((c1 :: D1') ++ '-' :: ((c2 :: D2') ++ ':' :: P)).takeWhile isPySpace = [] := by
      rw [List.cons_append, List.takeWhile_cons_of_neg]
      simp [isPySpace_false_of_digit (h1d c1 (by simp))]
    rw [this]
  have hd1 : ((c1 :: D1') ++ '-' :: ((c2 :: D2') ++ ':' :: P)).takeWhile Char.isDigit
      = c1 :: D1' :=
    takeWhile_append_of_all (c1 :: D1') _ h1d (by decide)
  have hd1drop : ((c1 :: D1') ++ '-' :: ((c2 :: D2') ++ ':' :: P)).drop (c1 :: D1').length
      = '-' :: ((c2 :: D2') ++ ':' :: P) := List.drop_left _ _
  have hd2 : ((c2 :: D2') ++ ':' :: P).takeWhile Char.isDigit = c2 :: D2' :=
    takeWhile_append_of_all (c2 :: D2') _ h2d (by decide)
  have hd2drop : ((c2 :: D2') ++ ':' :: P).drop (c2 :: D2').length = ':' :: P :=
    List.drop_left _ _
  have hd1drop2 : List.drop (D1'.length + 1) ((c1 :: D1') ++ ('-' :: ((c2 :: D2') ++ (':' :: P))))
      = '-' :: ((c2 :: D2') ++ (':' :: P)) := by
    rw [List.cons_append, List.drop_succ_cons]
    exact List.drop_left _ _
  have hd2drop2 : List.drop (D2'.length + 1) ((c2 :: D2') ++ (':' :: P)) = ':' :: P := by
    rw [List.cons_append, List.drop_succ_cons]
    exact List.drop_left _ _
  simp only [matchTextAt, hc1, if_true, hdrop5, hws, List.isEmpty_cons, List.length_cons,
    List.length_nil, List.drop_succ_cons, List.drop_zero, hd1, hd1drop,
    List.length_singleton, Bool.false_eq_true, if_false]
  simp only [hd1drop2, hd2, List.isEmpty_cons, Bool.false_eq_true, if_false,
    List.length_cons, hd2drop2]

theorem stripL_mkTextLine (f t : Nat) (payload : List Char) :
    stripL (mkTextLine f t payload) =
      ("text: ".data) ++ natToChars f ++ '-' :: (natToChars t ++ ':' :: rstripL payload) := by
  rw [stripL]
  have hl : lstripL (mkTextLine f t payload) = mkTextLine f t payload := by
    have hshape : mkTextLine f t payload
        = 't' :: (("ext: ".data) ++ natToChars f ++ '-' :: (natToChars t ++ ':' :: payload)) :=
      rfl
    rw [hshape, lstripL, List.dropWhile_cons_of_neg (by decide)]
  rw [hl, mkTextLine]
  have hassoc : ("text: ".data) ++ natToChars f ++ '-' :: (natToChars t ++ ':' :: payload)
      = (("text: ".data) ++ natToChars f ++ '-' :: natToChars t) ++ ':' :: payload := by
    simp
  rw [hassoc, rstripL_append_cons _ _ (by decide)]
  simp

/-- The parser's view of a well-formed body line: it recovers the two
change numbers and the payload with its trailing whitespace removed (the
line is `strip()`ped before the regex is applied). -/
theorem searchText_mkTextLine (f t : Nat) (payload : List Char) :
    searchText (stripL (mkTextLine f t payload)) = some (f, t, rstripL payload) := by
  rw [stripL_mkTextLine]
  have hm := matchTextAt_shape (natToChars f) (natToChars t) (rstripL payload)
    (natToChars_ne_nil f) (fun c hc => natToChars_all_digits hc)
    (natToChars_ne_nil t) (fun c hc => natToChars_all_digits hc)
  have hm2 : matchTextAt
      ('t' :: (("ext: ".data) ++ natToChars f ++ '-' :: (natToChars t ++ ':' :: rstripL payload)))
      = some (digitsToNat (natToChars f), digitsToNat (natToChars t), rstripL payload) := hm
  have hshape : ("text: ".data) ++ natToChars f ++ '-' :: (natToChars t ++ ':' :: rstripL payload)
      = 't' :: (("ext: ".data) ++ natToChars f ++ '-' :: (natToChars t ++ ':' :: rstripL payload)) :=
    rfl
  rw [hshape]
  simp only [searchText, hm2]
  rw [digitsToNat_natToChars, digitsToNat_natToChars]

/-- Every rendered report line ends with the record's verbatim text. -/
theorem renderRec_ends_with_text (w cl : Nat) (r : LineRec) :
    ∃ pre, renderRec w cl r = pre ++ r.text := by
  refine ⟨lnumOf w r ++ ' ' :: (padRightTo cl (clrOf r) ++ ' ' :: (r.sep ++ [' '])), ?_⟩
  rw [renderRec]
  simp

/-- Default record used with `List.getLastD`. -/
def dummyRec : LineRec :=
  { cl_from := 0, cl_from_owner := [], lineno := 0, sep := [], text := [],
    cl_to := 0, cl_to_owner := [], rtype := "" }

/-- C9 (counterexample): the body line `text: 1-2:hi ` carries the payload
`hi ` after the revision-range prefix, but the parser stores `hi` — the
trailing blank is removed by the `strip()` applied before the regex, so the
stored text is not character-for-character identical to the input text. -/
theorem c9_counterexample :
    (("text: 1-2:hi ").data) = (("text: 1-2:").data) ++ (("hi ").data) ∧
      searchText (stripL (("text: 1-2:hi ").data)) = some (1, 2, (("hi").data)) ∧
      (("hi").data) ≠ (("hi ").data) := by
  refine ⟨by decide, rfl, by decide⟩

/-- C9 (amended): for every body line `text: <f>-<t>:<payload>`, the parser
stores the payload with only its trailing whitespace removed (leading and
embedded characters verbatim), the record built from the line carries
exactly that text, and the rendered report line ends with it. -/
theorem c9_text_amended (f t : Nat) (payload : List Char)
    (d : Nat → Int × List Char) (latest : Nat) (st st' : LoopSt) (w cl : Nat) :
    searchText (stripL (mkTextLine f t payload)) = some (f, t, rstripL payload) ∧
      (stepLine d latest st (mkTextLine f t payload) = Except.ok st' →
        (st'.data.getLastD dummyRec).text = rstripL payload ∧
          ∃ pre, renderRec w cl (st'.data.getLastD dummyRec) = pre ++ rstripL payload) := by
  refine ⟨searchText_mkTextLine f t payload, ?_⟩
  intro h
  obtain ⟨cf, ct, tx, fo, tow, st1, st2, hs, h1, h2, ht0, hf0, hst⟩ := stepLine_ok h
  rw [searchText_mkTextLine] at hs
  have htx : tx = rstripL payload := by
    have := hs
    simp only [Option.some.injEq, Prod.mk.injEq] at this
    exact this.2.2.symm
  subst htx hst
  rw [stepUpdate_data, List.getLastD_concat]
  exact ⟨rfl, renderRec_ends_with_text w cl _⟩

theorem c9_text_amended_witness :
    searchText (stripL (mkTextLine 1 2 (("hi ").data))) = some (1, 2, rstripL (("hi ").data)) ∧
      ((stepLine demoDescribe 2 initSt (mkTextLine 1 2 (("hi ").data))).toOption.getD initSt
          |>.data.getLastD dummyRec).text = rstripL (("hi ").data) := by
  have h := c9_text_amended 1 2 (("hi ").data) demoDescribe 2 initSt
    { data := [{ cl_from := 1, cl_from_owner := ['u'], lineno := 1, sep := ['|'],
                 text := (("hi").data), cl_to := 2, cl_to_owner := ['u'], rtype := "present" }],
      cl_owner := [(1, ['u']), (2, ['u'])], lookups := [1, 2],
      cl_to_max_digits := 1, cl_from_max_digits := 1,
      cl_to_owner_max_len := 1, cl_from_owner_max_len := 1, lineno := 1 } 1 18
  have h2 := h.2 rfl
  exact ⟨h.1, h2.1⟩

/-! ### Owner lookup: first match decides (claim C6) -/

theorem scanDescribe_mem :
    ∀ (ls : List (List Char)) (c : Nat) (o : List Char),
      scanDescribe ls = (c, some o) → ∃ l ∈ ls, searchChangeBy l = some (c, o) := by
  intro ls
  induction ls with
  | nil =>
    intro c o h
    simp [scanDescribe] at h
  | cons l ls ih =>
    intro c o h
    unfold scanDescribe at h
    cases hm : searchChangeBy l with
    | some p =>
      obtain ⟨c', o'⟩ := p
      simp only [hm] at h
      obtain ⟨rfl, rfl⟩ : c' = c ∧ o' = o := by
        simpa [Prod.ext_iff] using h
      exact ⟨l, by simp, hm⟩
    | none =>
      simp only [hm] at h
      obtain ⟨l', hl', hm'⟩ := ih c o h
      exact ⟨l', by simp [hl'], hm'⟩

/-- C6 (counterexample): a describe output whose first matching line names
change 99 but which also contains a line matching `Change 10 by bob@` —
the lookup for change 10 fails even though a line matching the requested
number is present, refuting "succeeds whenever the output contains at
least one line matching the pattern for that same N". -/
theorem c6_counterexample :
    get_owner ((0 : Int), (("Change 99 by amy@h\nChange 10 by bob@h").data)) 10 =
        Except.error ("p4 describe record not found") ∧
      (("Change 10 by bob@h").data) ∈ splitLines (("Change 99 by amy@h\nChange 10 by bob@h").data) ∧
      searchChangeBy (("Change 10 by bob@h").data) = some (10, (("bob").data)) := by
  refine ⟨rfl, by decide, by decide⟩

/-- C6 (amended): `get_owner` succeeds exactly when the **first** line of
the lookup output matching `Change <N> by <owner>@` carries the requested
change number (such a line then indeed exists in the output); if no line
matches, or the first matching line carries a different number, it aborts
with the "record not found" error. -/
theorem c6_get_owner_amended (out : List Char) (cln : Nat) :
    (∀ o, scanDescribe (splitLines out) = (cln, some o) →
        get_owner ((0 : Int), out) cln = Except.ok o ∧
          ∃ l ∈ splitLines out, searchChangeBy l = some (cln, o)) ∧
      ((scanDescribe (splitLines out)).2 = none ∨ (scanDescribe (splitLines out)).1 ≠ cln →
        get_owner ((0 : Int), out) cln = Except.error ("p4 describe record not found")) := by
  constructor
  · intro o hscan
    refine ⟨?_, scanDescribe_mem _ _ _ hscan⟩
    rw [get_owner]
    simp only [ne_eq, not_true_eq_false, if_neg, hscan]
    simp
  · intro hbad
    rw [get_owner]
    cases hscan : scanDescribe (splitLines out) with
    | mk change ow =>
      rw [hscan] at hbad
      simp only
      by_cases hch : change = cln
      · subst hch
        rcases hbad with hnone | hne
        · simp only at hnone
          subst hnone
          simp
        · exact absurd rfl hne
      · simp [hch]

theorem c6_get_owner_amended_witness :
    get_owner ((0 : Int), (("blah\nChange 10 by amy@h\nother").data)) 10 =
        Except.ok (("amy").data) ∧
      (∃ l ∈ splitLines (("blah\nChange 10 by amy@h\nother").data),
        searchChangeBy l = some (10, (("amy").data))) ∧
      get_owner ((0 : Int), (("blah\nChange 10 by amy@h\nother").data)) 7 =
        Except.error ("p4 describe record not found") := by
  have h1 := (c6_get_owner_amended (("blah\nChange 10 by amy@h\nother").data) 10).1
    (("amy").data) (by decide)
  have h2 := (c6_get_owner_amended (("blah\nChange 10 by amy@h\nother").data) 7).2
    (by decide)
  exact ⟨h1.1, h1.2, h2⟩

/-! ### Terminator handling (claim C8) -/

theorem drop1_dropLast_concat (l : List (List Char)) (a : List Char) :
    ((l ++ [a]).drop 1).dropLast = l.drop 1 := by
  cases l with
  | nil => rfl
  | cons x xs => simp

theorem drop1_dropLast2_concat2 (l : List (List Char)) (a b : List Char) :
    (((l ++ [a, b]).drop 1).dropLast).dropLast = l.drop 1 := by
  cases l with
  | nil => rfl
  | cons x xs =>
    have hsplit : xs ++ [a, b] = (xs ++ [a]) ++ [b] := by simp
    simp only [List.cons_append, List.drop_succ_cons, List.drop_zero, hsplit,
      List.dropLast_concat]

theorem exitCheck_concat (pre : List (List Char)) (e : List Char)
    (he : containsSubL (("exit:").data) e = true) :
    exitCheck (pre ++ [e]) = Except.ok (pre.drop 1) := by
  rw [exitCheck, List.getLastD_concat, he, if_pos rfl, drop1_dropLast_concat]

theorem exitCheck_concat_blank (pre : List (List Char)) (e b : List Char)
    (he : containsSubL (("exit:").data) e = true)
    (hb : containsSubL (("exit:").data) b = false) :
    exitCheck (pre ++ [e, b]) = Except.ok (pre.drop 1) := by
  have hsplit : pre ++ [e, b] = (pre ++ [e]) ++ [b] := by simp
  have hlast : (pre ++ [e, b]).getLastD [] = b := by
    rw [hsplit, List.getLastD_concat]
  have hlen : ¬ ((pre ++ [e, b]).length < 2) := by
    simp only [List.length_append, List.length_cons, List.length_nil]
    omega
  have hsub : (pre ++ [e, b]).length - 2 = pre.length := by
    simp only [List.length_append, List.length_cons, List.length_nil]
    omega
  have hgd : (pre ++ [e, b]).getD pre.length [] = e := by
    rw [List.getD_eq_getElem?_getD, List.getElem?_append_right (le_refl _)]
    simp
  rw [exitCheck, hlast, hb, if_neg Bool.false_ne_true, if_neg hlen, hsub, hgd, he,
    if_pos rfl, drop1_dropLast2_concat2]

theorem exitCheck_missing (L : List (List Char))
    (h2 : 2 ≤ L.length)
    (hl1 : containsSubL (("exit:").data) (L.getLastD []) = false)
    (hl2 : containsSubL (("exit:").data) (L.getD (L.length - 2) []) = false) :
    exitCheck L = Except.error (LoopErr.fatalE ("cannot find exit: record")) := by
  rw [exitCheck, hl1, hl2, if_neg Bool.false_ne_true, if_neg (by omega),
    if_neg Bool.false_ne_true]

/-- C8 (counterexample): an annotate output whose `exit:` terminator is
preceded by exactly one blank line is not processed normally — the blank
line lands in the body slice `lines[1:-1]` and is a fatal unrecognized
line. -/
theorem c8_counterexample :
    (splitLines (("info: f#2 - edit change 5 (text)\ntext: 1-5:a\n\nexit:").data)).getD 2 [] = [] ∧
      containsSubL (("exit:").data)
        ((splitLines (("info: f#2 - edit change 5 (text)\ntext: 1-5:a\n\nexit:").data)).getLastD [])
        = true ∧
      (process ((0 : Int), (("info: f#2 - edit change 5 (text)\ntext: 1-5:a\n\nexit:").data))
          demoDescribe).outcome = Outcome.fatal ("unrecognized line") := by
  refine ⟨by decide, by decide, rfl⟩

/-- C8 (amended): the terminator may be the last line or be **followed** by
one trailing blank line — the two inputs are processed identically; for a
stream of at least two lines with no `exit:` in either of the final two
lines, parsing aborts with the fatal format error (a blank line *before*
the terminator is instead rejected as an unrecognized body line, and a
single-line stream without terminator crashes on a negative index). -/
theorem c8_terminator_amended (d : Nat → Int × List Char)
    (pre L : List (List Char)) (e b : List Char)
    (he : containsSubL (("exit:").data) e = true)
    (hb : containsSubL (("exit:").data) b = false)
    (h2 : 2 ≤ L.length)
    (hl1 : containsSubL (("exit:").data) (L.getLastD []) = false)
    (hl2 : containsSubL (("exit:").data) (L.getD (L.length - 2) []) = false) :
    exitCheck (pre ++ [e]) = Except.ok (pre.drop 1) ∧
      exitCheck (pre ++ [e, b]) = Except.ok (pre.drop 1) ∧
      processLines d (pre ++ [e]) = processLines d (pre ++ [e, b]) ∧
      exitCheck L = Except.error (LoopErr.fatalE ("cannot find exit: record")) := by
  have h1 := exitCheck_concat pre e he
  have h2' := exitCheck_concat_blank pre e b he hb
  refine ⟨h1, h2', ?_, exitCheck_missing L h2 hl1 hl2⟩
  have hhead : (pre ++ [e]).headD [] = (pre ++ [e, b]).headD [] := by
    cases pre <;> rfl
  unfold processLines
  rw [hhead, h1, h2']

theorem c8_terminator_amended_witness :
    exitCheck ([(("h").data)] ++ [(("exit:").data)]) = Except.ok ([(("h").data)].drop 1) ∧
      exitCheck ([(("h").data)] ++ [(("exit:").data), []]) = Except.ok ([(("h").data)].drop 1) ∧
      processLines (fun _ => ((1 : Int), [])) ([(("h").data)] ++ [(("exit:").data)]) =
        processLines (fun _ => ((1 : Int), [])) ([(("h").data)] ++ [(("exit:").data), []]) ∧
      exitCheck [(("x").data), (("y").data)] =
        Except.error (LoopErr.fatalE ("cannot find exit: record")) :=
  c8_terminator_amended (fun _ => ((1 : Int), [])) [(("h").data)]
    [(("x").data), (("y").data)] (("exit:").data) []
    (by decide) (by decide) (by decide) (by decide) (by decide)

/-! ### End-to-end scenario (claim C5) -/

/-- The annotate output of the C5 scenario. -/
def c5Out : String :=
  "info: file#3 - edit change 30 (text)\ntext: 10-30:alpha\ntext: 10-20:beta\nexit:"

/-- The describe oracle of the C5 scenario: change 10 is owned by amy,
20 by bob, 30 by cleo. -/
def c5Describe : Nat → Int × List Char := fun cln =>
  match cln with
  | 10 => ((0 : Int), (("Change 10 by amy@host on x").data))
  | 20 => ((0 : Int), (("Change 20 by bob@host on x").data))
  | 30 => ((0 : Int), (("Change 30 by cleo@host on x").data))
  | _ => ((1 : Int), [])

/-- The present record the scenario produces for `alpha`. -/
def c5Rec1 : LineRec :=
  { cl_from := 10, cl_from_owner := (("amy").data), lineno := 1, sep := ['|'],
    text := (("alpha").data), cl_to := 30, cl_to_owner := (("cleo").data),
    rtype := "present" }

/-- The deleted record the scenario produces for `beta`: change 20's owner
is bob (not cleo as the spec's expected output says). -/
def c5Rec2 : LineRec :=
  { cl_from := 10, cl_from_owner := (("amy").data), lineno := 1, sep := ['-'],
    text := (("beta").data), cl_to := 20, cl_to_owner := (("bob").data),
    rtype := "deleted" }

/-- C5 (counterexample): in the scenario the deleted record's change/owner
column is `10@amy ... 20@bob` — change 20 resolves to bob under the given
lookups — not the `10@amy ... 20@cleo` the claim expects. -/
theorem c5_counterexample :
    clrOf ((process ((0 : Int), c5Out.data) c5Describe).st.data.getD 1 dummyRec) =
        (("10@amy ... 20@bob").data) ∧
      (("10@amy ... 20@bob").data) ≠ (("10@amy ... 20@cleo").data) := by
  refine ⟨rfl, by decide⟩

/-- C5 (amended): the scenario succeeds and produces: a present record for
`alpha`, rendered as line 1 with change/owner column `10@amy` and separator
`|`, and a deleted record for `beta` with change/owner column
`10@amy ... 20@bob` and separator `-`. -/
theorem c5_scenario_amended :
    (process ((0 : Int), c5Out.data) c5Describe).outcome = Outcome.ok ∧
      (process ((0 : Int), c5Out.data) c5Describe).st.data = [c5Rec1, c5Rec2] ∧
      clrOf c5Rec1 = (("10@amy").data) ∧ c5Rec1.sep = ['|'] ∧ c5Rec1.lineno = 1 ∧
      c5Rec1.text = (("alpha").data) ∧ c5Rec1.rtype = "present" ∧
      clrOf c5Rec2 = (("10@amy ... 20@bob").data) ∧ c5Rec2.sep = ['-'] ∧
      c5Rec2.rtype = "deleted" ∧ c5Rec2.text = (("beta").data) ∧
      (process ((0 : Int), c5Out.data) c5Describe).printed =
        [(("info: file#3 - edit change 30 (text)").data),
         (("1 10@amy             | alpha").data),
         (("- 10@amy ... 20@bob  - beta").data),
         (("info: file#3 - edit change 30 (text)").data)] := by
  exact ⟨rfl, rfl, rfl, rfl, rfl, rfl, rfl, rfl, rfl, rfl, rfl, rfl⟩

end P4
